import Mathlib

/-!
Verification of the CalDom reactive core (src/caldom.js).

The development shallow-embeds the parts of caldom.js that the claims are
about:

* the tree diff/patch reconciler `_replace` (caldom.js 1176-1288), including
  `_copyProps` (1146-1166), over a snapshot model of DOM trees with node
  identity carried as numeric ids,
* the scheduling / coalescing portion of `react` (1010-1038) and its
  pass-execution portion (1072-1132) with the ledger reset `_didUpdate`
  (859-866),
* the change-observation proxy `watch` (1297-1330),
* the insertion engine `insertBefore` (1340-1405),
* `init` and `_setMultipleMode` (139-179) with the single/multiple accessor
  dispatch (`_attrSingle`/`_attrMultiple`, `_eachSingle`/`_eachMultiple`).

Host (browser) APIs are modelled by their documented semantics: `isEqualNode`
compares node type, tag, the attribute set (unordered) and the child lists
pairwise; setting `nodeValue` on an element is a silent no-op; `getAttribute`
returns null (here `none`) for an absent attribute.  Mutations performed on
live nodes are recorded in an event trace so that claims about "zero mutation
calls" and lifecycle-hook ordering are statable.
-/

/-- Properties that `_copyProps` synchronises between a freshly rendered node
and the live node: `value`, `checked`, `indeterminate` (all three only for
element types whose prototype owns a `value` property), `selected` and the
custom data slot `_data`. -/
structure Props where
  value : String
  checked : Bool
  indeterminate : Bool
  selected : Bool
  data : Option String
  deriving DecidableEq

/-- Default property bundle of a freshly created element. -/
def Props.default0 : Props := ⟨"", false, false, false, none⟩

/-- Snapshot of a DOM node.  `id` models reference identity of the host node
object (patched-in-place nodes keep their id).  `text` is a character-data
node (nodeType 3), `elem` an element (nodeType 1).  An element carries:
its tag name, whether its prototype owns a `value` property (true for
input-like elements), its attribute list, the `_h` owning-Component
back-reference (component identity as a numeric id, reference identity of the
handler object), its live properties, the `_original_root` staging pointer
set by a parent-triggered re-render clone, and its childNodes. -/
inductive DNode where
  | text (id : Nat) (value : String) (h : Option Nat)
  | elem (id : Nat) (tag : String) (valueProto : Bool)
      (attrs : List (String × String)) (h : Option Nat) (props : Props)
      (origRoot : Option DNode) (children : List DNode)

/-- Node id (reference identity of the host object). -/
def DNode.idOf : DNode → Nat
  | .text i _ _ => i
  | .elem i _ _ _ _ _ _ _ => i

/-- nodeType == 1 test used by `_replace`. -/
def DNode.isElem : DNode → Bool
  | .text _ _ _ => false
  | .elem _ _ _ _ _ _ _ _ => true

/-- `.tagName`: the tag for an element, undefined (`none`) for a text node. -/
def DNode.tagOf : DNode → Option String
  | .text _ _ _ => none
  | .elem _ t _ _ _ _ _ _ => some t

/-- The `_h` owning-Component back-reference. -/
def DNode.hOf : DNode → Option Nat
  | .text _ _ h => h
  | .elem _ _ _ _ h _ _ _ => h

/-- The `_original_root` staging pointer (only ever set on element clones). -/
def DNode.origRootOf : DNode → Option DNode
  | .text _ _ _ => none
  | .elem _ _ _ _ _ _ o _ => o

/-- `.childNodes` (all child nodes; empty for text nodes). -/
def DNode.childrenOf : DNode → List DNode
  | .text _ _ _ => []
  | .elem _ _ _ _ _ _ _ cs => cs

/-- The attribute list (empty for text nodes). -/
def DNode.attrsOf : DNode → List (String × String)
  | .text _ _ _ => []
  | .elem _ _ _ as _ _ _ _ => as

/-- Whether the node's prototype owns a `value` property
(`Object.getPrototypeOf(old_dom_node).hasOwnProperty("value")`). -/
def DNode.valueProtoOf : DNode → Bool
  | .text _ _ _ => false
  | .elem _ _ vp _ _ _ _ _ => vp

/-- The live property bundle (text nodes carry none of them). -/
def DNode.propsOf : DNode → Props
  | .text _ _ _ => Props.default0
  | .elem _ _ _ _ _ p _ _ => p

/-- `getAttribute`: first binding of the name, `none` models null. -/
def lookupAttr (name : String) : List (String × String) → Option String
  | [] => none
  | (n2, v2) :: rest => if n2 == name then some v2 else lookupAttr name rest

/-- `node.getAttribute(name)` (attributes live only on elements). -/
def DNode.getAttr (n : DNode) (name : String) : Option String :=
  lookupAttr name n.attrsOf

/-- `.children`: element children only (as opposed to `.childNodes`). -/
def DNode.elemChildren (n : DNode) : List DNode :=
  n.childrenOf.filter DNode.isElem

/-- Replace the child list of an element in place. -/
def DNode.withChildren : DNode → List DNode → DNode
  | .elem i t vp as h p o _, cs => .elem i t vp as h p o cs
  | n, _ => n

/-- Replace the attribute list of an element in place. -/
def DNode.withAttrs : DNode → List (String × String) → DNode
  | .elem i t vp _ h p o cs, as => .elem i t vp as h p o cs
  | n, _ => n

/-- Mutation / lifecycle events observable while the reconciler runs.  Every
constructor corresponds to one concrete host call performed by `_replace` or
`_copyProps` on a live node, or to one lifecycle signal. -/
inductive Ev where
  | willUnmount (comp : Nat)
  | didUnmount (comp : Nat)
  | removeChild (node : Nat)
  | appendChild (node : Nat)
  | replaceChild (newNode oldNode : Nat)
  | setAttr (node : Nat) (name val : String)
  | removeAttr (node : Nat) (name : String)
  | setNodeValue (node : Nat) (v : String)
  | setValue (node : Nat) (v : String)
  | setChecked (node : Nat) (b : Bool)
  | setIndeterminate (node : Nat) (b : Bool)
  | setSelected (node : Nat) (b : Bool)
  | setData (node : Nat) (d : Option String)
  | updateCompRoot (comp : Nat) (node : Nat)
  deriving DecidableEq

/-- Attribute-level patching events (`setAttribute` / `removeAttribute`). -/
def Ev.isAttrMutation : Ev → Bool
  | .setAttr _ _ _ => true
  | .removeAttr _ _ => true
  | _ => false

/-- Shallow property-sync events emitted by `_copyProps`. -/
def Ev.isPropCopy : Ev → Bool
  | .setValue _ _ => true
  | .setChecked _ _ => true
  | .setIndeterminate _ _ => true
  | .setSelected _ _ => true
  | .setData _ _ => true
  | _ => false

/-- Unordered attribute-set equality used by the host `isEqualNode`
(a DOM element never carries two attributes of the same name, so pairwise
membership in both directions is exactly name-to-value map equality). -/
def attrsEquiv (a b : List (String × String)) : Bool :=
  a.all (fun p => b.contains p) && b.all (fun p => a.contains p)

mutual
/-- Host `Node.isEqualNode`: equal node type and, for text nodes, equal data;
for elements, equal tag, equal attribute set, and pairwise equal child lists.
Expando properties (`_h`, `_original_root`) and live properties (`value`,
`checked`, ...) are not part of host structural equality. -/
def isEqualNode : DNode → DNode → Bool
  | .text _ v _, .text _ v2 _ => v == v2
  | .elem _ t _ as _ _ _ cs, .elem _ t2 _ as2 _ _ _ cs2 =>
      t == t2 && attrsEquiv as as2 && isEqualList cs cs2
  | _, _ => false

/-- Pairwise `isEqualNode` on child lists (equal lengths required). -/
def isEqualList : List DNode → List DNode → Bool
  | [], [] => true
  | x :: xs, y :: ys => isEqualNode x y && isEqualList xs ys
  | _, _ => false
end

/-- caldom.js 1187-1190: `soft_replacable` — the candidate is an element, the
tag names agree, the `_h` back-references are identical, and the `caldom-v`
version-marker attribute values agree (null, i.e. `none`, when absent). -/
def soft_replacable (n o : DNode) : Bool :=
  n.isElem
    && n.tagOf == o.tagOf
    && n.hOf == o.hOf
    && n.getAttr "caldom-v" == o.getAttr "caldom-v"

/-- caldom.js 1179: `if( new_dom_node._original_root ) new_dom_node =
new_dom_node._original_root` — a staged clone stands for its original. -/
def resolveOrig (n : DNode) : DNode :=
  match n.origRootOf with
  | some orig => orig
  | none => n

/-- caldom.js 1149-1156: copy `value`/`checked`/`indeterminate` (when the
live node's prototype owns `value`), then `selected`, then `_data`, each only
when it differs, onto the live node; returns the updated node and the host
calls performed. -/
def copyPropsOne (n o : DNode) : DNode × List Ev :=
  match n, o with
  | .elem _ _ _ _ _ np _ _, .elem oi ot ovp oas oh op oorig ocs =>
    -- Each guarded write `if (old.x != new.x) old.x = new.x` touches its own
    -- field only, so the per-field final value is `new.x` whenever its guard
    -- group runs (writing an equal value back is stateless); the write itself
    -- is performed, and traced, only when the values differ.
    let evs : List Ev :=
      (if ovp then
          (if op.value == np.value then [] else [Ev.setValue oi np.value])
            ++ (if op.checked == np.checked then [] else [Ev.setChecked oi np.checked])
            ++ (if op.indeterminate == np.indeterminate then []
                else [Ev.setIndeterminate oi np.indeterminate])
        else [])
        ++ (if op.selected == np.selected then [] else [Ev.setSelected oi np.selected])
        ++ (if op.data == np.data then [] else [Ev.setData oi np.data])
    let p2 : Props :=
      { value := if ovp then np.value else op.value,
        checked := if ovp then np.checked else op.checked,
        indeterminate := if ovp then np.indeterminate else op.indeterminate,
        selected := np.selected,
        data := np.data }
    (.elem oi ot ovp oas oh p2 oorig ocs, evs)
  | _, _ => (o, [])  -- `_copyProps` is only ever invoked on element pairs

/-- caldom.js 1158-1165: the child enumeration of `_copyProps` pairs the
element children (`.children`) of the new and old node by index, bounded by
the new node's count, and runs the non-recursive `_copyProps(new_i, old_i)`
on each pair.  The walk threads through the old node's full childNodes list
so the updated element children are written back in place. -/
def copyPropsChildren : List DNode → List DNode → List DNode × List Ev
  | _, [] => ([], [])
  | newEls, o :: os =>
    if o.isElem then
      match newEls with
      | [] => (o :: os, [])  -- loop bound (new count) reached: rest untouched
      | n :: ns =>
        let r := copyPropsOne n o
        let rest := copyPropsChildren ns os
        (r.1 :: rest.1, r.2 ++ rest.2)
    else
      let rest := copyPropsChildren newEls os
      (o :: rest.1, rest.2)

/-- caldom.js 1146-1166: `_copyProps(new, old, enumerate_children)`. -/
def copyProps (n o : DNode) (enumChildren : Bool) : DNode × List Ev :=
  let r1 := copyPropsOne n o
  if enumChildren then
    let rc := copyPropsChildren n.elemChildren r1.1.childrenOf
    (r1.1.withChildren rc.1, r1.2 ++ rc.2)
  else r1

/-- `setAttribute`: overwrite the first binding of the name in place, or
append a fresh attribute at the end. -/
def setAttrList (attrs : List (String × String)) (name v : String) :
    List (String × String) :=
  match attrs with
  | [] => [(name, v)]
  | (n2, v2) :: rest =>
    if n2 == name then (n2, v) :: rest
    else (n2, v2) :: setAttrList rest name v

/-- caldom.js 1246-1252: for every attribute of the candidate whose value
differs on the live node (`getAttribute` null counts as different),
`setAttribute` it onto the live node, in candidate attribute order. -/
def syncAttrsAdd (oi : Nat) : List (String × String) → List (String × String) →
    List (String × String) × List Ev
  | [], old => (old, [])
  | (name, v) :: rest, old =>
    if lookupAttr name old == some v then syncAttrsAdd oi rest old
    else
      let r := syncAttrsAdd oi rest (setAttrList old name v)
      (r.1, Ev.setAttr oi name v :: r.2)

/-- caldom.js 1255-1263: walk the live attribute list (with the index
adjustment for live removal) and `removeAttribute` every attribute whose name
the candidate does not have. -/
def syncAttrsRemove (oi : Nat) (newAttrs : List (String × String)) :
    List (String × String) → List (String × String) × List Ev
  | [] => ([], [])
  | (name, v) :: rest =>
    let r := syncAttrsRemove oi newAttrs rest
    if (lookupAttr name newAttrs).isSome then ((name, v) :: r.1, r.2)
    else (r.1, Ev.removeAttr oi name :: r.2)

/-- caldom.js 1230-1237: removing one trailing live child fires its owning
Component's `_willUnmount`, removes the node, then fires `_didUnmount`. -/
def removalEvs (o : DNode) : List Ev :=
  (match o.hOf with | some k => [Ev.willUnmount k] | none => [])
    ++ [Ev.removeChild o.idOf]
    ++ (match o.hOf with | some k => [Ev.didUnmount k] | none => [])

/-- Which branch of `_replace` ran for this node. -/
inductive RBranch where
  | skipNone      -- 1177: candidate absent, return
  | appendNew     -- 1181-1183: live absent, appendChild(candidate)
  | softPatch     -- 1192-1267: the soft-replace path
  | equalNoop     -- 1269 false: not soft-replaceable but deep-equal, no-op
  | textCopy      -- 1271-1272: non-element candidate, nodeValue copied
  | hardSwap      -- 1274-1285: hard replace, candidate returned
  | fuelOut
  deriving DecidableEq

/-- Outcome of one `_replace(new, old, parent)` call: the branch taken, the
node now occupying the live position, the JS return value (`some` exactly
when a node was appended or hard-replaced), and the host-call trace. -/
structure RRes where
  branch : RBranch
  occupant : Option DNode
  ret : Option DNode
  evs : List Ev

/-- caldom.js 1219-1221: `if( replaced_elem && replaced_elem["_h"] )
replaced_elem["_h"].elems[0] = replaced_elem` — tracked-root bookkeeping for
a child that was appended or hard-replaced. -/
def hookEvs (r : RRes) : List Ev :=
  match r.ret with
  | some x =>
    match x.hOf with
    | some k => [Ev.updateCompRoot k x.idOf]
    | none => []
  | none => []

/-- caldom.js 1202-1239 instantiated with a reconciler for the child pairs:
walk the snapshot of the candidate's childNodes against the live childNodes
pairwise by position (an exhausted live slot is an `appendChild`), then
remove every trailing live child, firing unmount signals around each
removal.  Returns the updated live child list and the trace. -/
def childWalkF (rec : Option DNode → Option DNode → RRes) :
    List DNode → List DNode → List DNode × List Ev
  | [], rest => ([], rest.flatMap removalEvs)
  | n :: ns, [] =>
    let r := rec (some n) none
    let rest := childWalkF rec ns []
    ((match r.occupant with | some x => [x] | none => []) ++ rest.1,
      r.evs ++ hookEvs r ++ rest.2)
  | n :: ns, o :: os =>
    let r := rec (some n) (some o)
    let rest := childWalkF rec ns os
    ((match r.occupant with | some x => [x] | none => []) ++ rest.1,
      r.evs ++ hookEvs r ++ rest.2)

/-- caldom.js 1176-1288: `_replace(new_dom_node, old_dom_node, parent)`.
`fuel` bounds the recursion depth (each nesting level of the candidate tree
consumes one unit); every claim quantifies over all sufficient fuels.  The
parent argument only matters for the live-absent `appendChild` branch, which
the caller interprets, so it is not threaded here. -/
def replaceRun : Nat → Option DNode → Option DNode → RRes
  | 0, _, old? => ⟨.fuelOut, old?, none, []⟩
  | fuel + 1, cand?, old? =>
    match cand? with
    | none => ⟨.skipNone, old?, none, []⟩
    | some cand0 =>
      let cand := resolveOrig cand0
      match old? with
      | none => ⟨.appendNew, some cand, some cand, [Ev.appendChild cand.idOf]⟩
      | some old =>
        if soft_replacable cand old then
          if isEqualNode cand old then
            -- 1197 false: deep-equal short-circuit, only _copyProps(..., true)
            let cp := copyProps cand old true
            ⟨.softPatch, some cp.1, none, cp.2⟩
          else
            let newHas := !cand.childrenOf.isEmpty
            let step1 : DNode × List Ev :=
              if newHas || !old.childrenOf.isEmpty then
                let w := childWalkF (replaceRun fuel) cand.childrenOf old.childrenOf
                (old.withChildren w.1, w.2)
              else (old, [])
            -- 1205-1207: copy_props_recursively cleared iff the pair loop ran
            let copyRec := !newHas
            let old1 := step1.1
            let step2 : DNode × List Ev :=
              if isEqualNode cand old1 then (old1, [])
              else
                let aAdd := syncAttrsAdd old1.idOf cand.attrsOf old1.attrsOf
                let aRem := syncAttrsRemove old1.idOf cand.attrsOf aAdd.1
                (old1.withAttrs aRem.1, aAdd.2 ++ aRem.2)
            let cp := copyProps cand step2.1 copyRec
            ⟨.softPatch, some cp.1, none, step1.2 ++ step2.2 ++ cp.2⟩
        else
          if isEqualNode cand old then ⟨.equalNoop, some old, none, []⟩
          else if !cand.isElem then
            -- 1271-1272: old.nodeValue = new.nodeValue; on an element-typed
            -- live node the host nodeValue setter is a silent no-op.
            match cand, old with
            | .text _ v _, .text oi _ oh =>
              ⟨.textCopy, some (.text oi v oh), none, [Ev.setNodeValue oi v]⟩
            | _, _ => ⟨.textCopy, some old, none, []⟩
          else
            let evs :=
              (match old.hOf with | some k => [Ev.willUnmount k] | none => [])
                ++ [Ev.replaceChild cand.idOf old.idOf]
                ++ (match old.hOf with | some k => [Ev.didUnmount k] | none => [])
            ⟨.hardSwap, some cand, some cand, evs⟩

/-- The child walk of `_replace` at a given fuel for the pairs. -/
def childWalk (fuel : Nat) : List DNode → List DNode → List DNode × List Ev :=
  childWalkF (replaceRun fuel)

/-! Helper lemmas about the reconciler model. -/

theorem attrsEquiv_refl (as : List (String × String)) : attrsEquiv as as = true := by
  simp [attrsEquiv, List.all_eq_true]

mutual
theorem isEqualNode_refl (x : DNode) : isEqualNode x x = true := by
  cases x with
  | text i v h => simp [isEqualNode]
  | elem i t vp as h p o cs =>
    simp [isEqualNode, attrsEquiv_refl]
    exact isEqualList_refl cs
theorem isEqualList_refl (l : List DNode) : isEqualList l l = true := by
  cases l with
  | nil => rfl
  | cons x xs =>
    simp [isEqualList]
    exact ⟨isEqualNode_refl x, isEqualList_refl xs⟩
end

theorem soft_replacable_self (x : DNode) (hx : x.isElem = true) :
    soft_replacable x x = true := by
  simp [soft_replacable, hx]

theorem copyPropsOne_self (x : DNode) : copyPropsOne x x = (x, []) := by
  cases x with
  | text i v h => rfl
  | elem i t vp as h p o cs => simp [copyPropsOne]

theorem copyPropsChildren_filter_self (os : List DNode) :
    copyPropsChildren (os.filter DNode.isElem) os = (os, []) := by
  induction os with
  | nil => rfl
  | cons o os ih =>
    by_cases hel : o.isElem
    · simp [List.filter_cons, hel, copyPropsChildren, copyPropsOne_self, ih]
    · simp [List.filter_cons, hel, copyPropsChildren, ih]

theorem DNode.withChildren_self (x : DNode) : x.withChildren x.childrenOf = x := by
  cases x <;> rfl

theorem copyProps_self (x : DNode) : copyProps x x true = (x, []) := by
  simp [copyProps, copyPropsOne_self, DNode.elemChildren,
    copyPropsChildren_filter_self, DNode.withChildren_self]

theorem hookEvs_ret_none (r : RRes) (h : r.ret = none) : hookEvs r = [] := by
  simp [hookEvs, h]

theorem replaceRun_self (fuel : Nat) (x : DNode) (hx : x.origRootOf = none) :
    (replaceRun (fuel + 1) (some x) (some x)).occupant = some x
    ∧ (replaceRun (fuel + 1) (some x) (some x)).ret = none
    ∧ (replaceRun (fuel + 1) (some x) (some x)).evs = [] := by
  have hres : resolveOrig x = x := by simp [resolveOrig, hx]
  by_cases hel : x.isElem
  · simp [replaceRun, hres, soft_replacable_self x hel, isEqualNode_refl, copyProps_self]
  · have hs : soft_replacable x x = false := by
      simp [soft_replacable, hel]
    simp [replaceRun, hres, hs, isEqualNode_refl]


theorem replaceRun_branch_soft_iff (fuel : Nat) (cand old : DNode) :
    (replaceRun (fuel + 1) (some cand) (some old)).branch = RBranch.softPatch
      ↔ soft_replacable (resolveOrig cand) old = true := by
  cases hs : soft_replacable (resolveOrig cand) old with
  | true =>
    cases he : isEqualNode (resolveOrig cand) old with
    | true => simp [replaceRun, hs, he]
    | false => simp [replaceRun, hs, he]
  | false =>
    cases he : isEqualNode (resolveOrig cand) old with
    | true => simp [replaceRun, hs, he]
    | false =>
      cases hel : (resolveOrig cand).isElem with
      | true => simp [replaceRun, hs, he, hel]
      | false =>
        cases hcr : resolveOrig cand with
        | elem i t vp as h2 p o2 cs =>
          rw [hcr] at hel
          simp [DNode.isElem] at hel
        | text i v h2 =>
          rw [hcr] at hs he
          cases old <;> simp [replaceRun, hs, he, hcr, DNode.isElem]

theorem replaceRun_branch_hard_iff (fuel : Nat) (cand old : DNode) :
    (replaceRun (fuel + 1) (some cand) (some old)).branch = RBranch.hardSwap
      ↔ (soft_replacable (resolveOrig cand) old = false
          ∧ (resolveOrig cand).isElem = true
          ∧ isEqualNode (resolveOrig cand) old = false) := by
  cases hs : soft_replacable (resolveOrig cand) old with
  | true =>
    cases he : isEqualNode (resolveOrig cand) old with
    | true => simp [replaceRun, hs, he]
    | false => simp [replaceRun, hs, he]
  | false =>
    cases he : isEqualNode (resolveOrig cand) old with
    | true => simp [replaceRun, hs, he]
    | false =>
      cases hel : (resolveOrig cand).isElem with
      | true => simp [replaceRun, hs, he, hel]
      | false =>
        cases hcr : resolveOrig cand with
        | elem i t vp as h2 p o2 cs =>
          rw [hcr] at hel
          simp [DNode.isElem] at hel
        | text i v h2 =>
          rw [hcr] at hs he
          cases old <;> simp [replaceRun, hs, he, hcr, DNode.isElem]

theorem replaceRun_hard_spec (fuel : Nat) (cand old : DNode)
    (hy : (replaceRun (fuel + 1) (some cand) (some old)).branch = RBranch.hardSwap) :
    (replaceRun (fuel + 1) (some cand) (some old)).ret = some (resolveOrig cand)
    ∧ (replaceRun (fuel + 1) (some cand) (some old)).occupant
        = some (resolveOrig cand)
    ∧ (replaceRun (fuel + 1) (some cand) (some old)).evs =
        (match old.hOf with | some k => [Ev.willUnmount k] | none => [])
          ++ [Ev.replaceChild (resolveOrig cand).idOf old.idOf]
          ++ (match old.hOf with | some k => [Ev.didUnmount k] | none => [])
    ∧ ∀ e ∈ (replaceRun (fuel + 1) (some cand) (some old)).evs,
        e.isAttrMutation = false := by
  cases hs : soft_replacable (resolveOrig cand) old with
  | true =>
    cases he : isEqualNode (resolveOrig cand) old with
    | true => simp [replaceRun, hs, he] at hy
    | false => simp [replaceRun, hs, he] at hy
  | false =>
    cases he : isEqualNode (resolveOrig cand) old with
    | true => simp [replaceRun, hs, he] at hy
    | false =>
      cases hel : (resolveOrig cand).isElem with
      | false =>
        cases hcr : resolveOrig cand with
        | elem i t vp as h2 p o2 cs =>
          rw [hcr] at hel
          simp [DNode.isElem] at hel
        | text i v h2 =>
          rw [hcr] at hs he
          cases old <;> simp [replaceRun, hs, he, hcr, DNode.isElem] at hy
      | true =>
        refine ⟨?_, ?_, ?_, ?_⟩ <;> simp [replaceRun, hs, he, hel]
        cases hh : old.hOf <;> simp [hh, Ev.isAttrMutation]

/-- C1: reconciling a candidate against a present live node patches in place
(takes the soft-replace path) iff the four `soft_replacable` conditions hold:
the candidate is an element node, its tag name equals the live node's, the
`_h` owning-Component back-references are identical (or both absent), and the
`caldom-v` version-marker attribute values are equal (including both absent);
and whenever the reconciler instead hard-replaces — which happens exactly
when some condition fails while the candidate is an element not deep-equal to
the live node — the live node is wholesale replaced by the candidate under
its parent (a `replaceChild` host call bracketed by the live node's unmount
signals), the candidate is returned as the new occupant, and no
attribute-level patching is performed. -/
theorem c1_soft_replace_iff (fuel : Nat) (cand old : DNode) :
    ((replaceRun (fuel + 1) (some cand) (some old)).branch = RBranch.softPatch
        ↔ soft_replacable (resolveOrig cand) old = true)
    ∧ (soft_replacable (resolveOrig cand) old =
        ((resolveOrig cand).isElem
          && (resolveOrig cand).tagOf == old.tagOf
          && (resolveOrig cand).hOf == old.hOf
          && (resolveOrig cand).getAttr "caldom-v" == old.getAttr "caldom-v"))
    ∧ ((replaceRun (fuel + 1) (some cand) (some old)).branch = RBranch.hardSwap
        ↔ (soft_replacable (resolveOrig cand) old = false
            ∧ (resolveOrig cand).isElem = true
            ∧ isEqualNode (resolveOrig cand) old = false))
    ∧ ((replaceRun (fuel + 1) (some cand) (some old)).branch = RBranch.hardSwap →
        (replaceRun (fuel + 1) (some cand) (some old)).ret
            = some (resolveOrig cand)
        ∧ (replaceRun (fuel + 1) (some cand) (some old)).occupant
            = some (resolveOrig cand)
        ∧ (replaceRun (fuel + 1) (some cand) (some old)).evs =
            (match old.hOf with | some k => [Ev.willUnmount k] | none => [])
              ++ [Ev.replaceChild (resolveOrig cand).idOf old.idOf]
              ++ (match old.hOf with | some k => [Ev.didUnmount k] | none => [])
        ∧ ∀ e ∈ (replaceRun (fuel + 1) (some cand) (some old)).evs,
            e.isAttrMutation = false) :=
  ⟨replaceRun_branch_soft_iff fuel cand old, rfl,
    replaceRun_branch_hard_iff fuel cand old,
    replaceRun_hard_spec fuel cand old⟩

/-- Witness for C1 at a concrete input: a candidate `<span>` against a live
`<div>` with identical (empty) content is hard-replaced and the candidate is
returned as the new occupant. -/
theorem c1_soft_replace_iff_witness :
    (replaceRun 1
        (some (DNode.elem 1 "SPAN" false [] none Props.default0 none []))
        (some (DNode.elem 2 "DIV" false [] none Props.default0 none []))).branch
      = RBranch.hardSwap
    ∧ (replaceRun 1
        (some (DNode.elem 1 "SPAN" false [] none Props.default0 none []))
        (some (DNode.elem 2 "DIV" false [] none Props.default0 none []))).ret
      = some (DNode.elem 1 "SPAN" false [] none Props.default0 none []) :=
  have h := c1_soft_replace_iff 0
    (DNode.elem 1 "SPAN" false [] none Props.default0 none [])
    (DNode.elem 2 "DIV" false [] none Props.default0 none [])
  have hb : (replaceRun 1
      (some (DNode.elem 1 "SPAN" false [] none Props.default0 none []))
      (some (DNode.elem 2 "DIV" false [] none Props.default0 none []))).branch
        = RBranch.hardSwap :=
    h.2.2.1.mpr ⟨by decide, by decide, by decide⟩
  ⟨hb, (h.2.2.2 hb).1⟩

theorem childWalkF_pair_self (fuel : Nat) (a b c : DNode)
    (ha : a.origRootOf = none) (hb : b.origRootOf = none) :
    childWalkF (replaceRun (fuel + 1)) [a, b] [a, b, c] = ([a, b], removalEvs c) := by
  have ra := replaceRun_self fuel a ha
  have rb := replaceRun_self fuel b hb
  simp [childWalkF, ra.1, ra.2.1, ra.2.2, rb.1, rb.2.1, rb.2.2, hookEvs]

theorem replaceRun_trailing_scenario (fuel : Nat) (pid1 pid2 : Nat) (tag : String)
    (vp : Bool) (attrs : List (String × String)) (h : Option Nat) (props : Props)
    (a b c : DNode) (ha : a.origRootOf = none) (hb : b.origRootOf = none) :
    replaceRun (fuel + 2)
        (some (DNode.elem pid1 tag vp attrs h props none [a, b]))
        (some (DNode.elem pid2 tag vp attrs h props none [a, b, c]))
      = ⟨RBranch.softPatch,
          some (DNode.elem pid2 tag vp attrs h props none [a, b]),
          none, removalEvs c⟩ := by
  have hsoft : soft_replacable
      (DNode.elem pid1 tag vp attrs h props none [a, b])
      (DNode.elem pid2 tag vp attrs h props none [a, b, c]) = true := by
    simp [soft_replacable, DNode.isElem, DNode.tagOf, DNode.hOf, DNode.getAttr,
      DNode.attrsOf]
  have hne : isEqualNode
      (DNode.elem pid1 tag vp attrs h props none [a, b])
      (DNode.elem pid2 tag vp attrs h props none [a, b, c]) = false := by
    simp [isEqualNode, isEqualList]
  have heq2 : isEqualNode
      (DNode.elem pid1 tag vp attrs h props none [a, b])
      (DNode.elem pid2 tag vp attrs h props none [a, b]) = true := by
    simp [isEqualNode, isEqualList, attrsEquiv_refl, isEqualNode_refl]
  have hw := childWalkF_pair_self fuel a b c ha hb
  rw [replaceRun]
  simp [resolveOrig, DNode.origRootOf, DNode.childrenOf, hsoft, hne, hw,
    DNode.withChildren, heq2, copyProps, copyPropsOne]
  intro id v h1 oi value oh hbad
  simp [resolveOrig, DNode.origRootOf] at hbad

/-- C2: in a soft-replace whose sides are not deep-equal, children are matched
pairwise by position only (the walk consumes one candidate child and the live
child at the same position, reconciles the pair recursively, then moves on),
every trailing live child beyond the candidate's child count is removed with
its owning Component's `willUnmount` fired before the removal and `didUnmount`
after; in particular, reconciling a candidate parent with children `[A, B]`
against a live parent with children `[A, B, C]` removes exactly `C` (with its
unmount signals) while `A` and `B` are kept in place — the live parent's
resulting child list is the original `A` and `B` nodes and the trace contains
no removal or insertion for them. -/
theorem c2_positional_child_diff :
    (∀ (fuel : Nat) (n o : DNode) (ns os : List DNode),
      childWalk fuel (n :: ns) (o :: os) =
        ((match (replaceRun fuel (some n) (some o)).occupant with
            | some x => [x] | none => []) ++ (childWalk fuel ns os).1,
          (replaceRun fuel (some n) (some o)).evs
            ++ hookEvs (replaceRun fuel (some n) (some o))
            ++ (childWalk fuel ns os).2))
    ∧ (∀ (fuel : Nat) (os : List DNode),
        childWalk fuel [] os = ([], os.flatMap removalEvs))
    ∧ (∀ o : DNode, removalEvs o =
        (match o.hOf with | some k => [Ev.willUnmount k] | none => [])
          ++ [Ev.removeChild o.idOf]
          ++ (match o.hOf with | some k => [Ev.didUnmount k] | none => []))
    ∧ (∀ (fuel : Nat) (pid1 pid2 : Nat) (tag : String) (vp : Bool)
        (attrs : List (String × String)) (h : Option Nat) (props : Props)
        (a b c : DNode), a.origRootOf = none → b.origRootOf = none →
        replaceRun (fuel + 2)
            (some (DNode.elem pid1 tag vp attrs h props none [a, b]))
            (some (DNode.elem pid2 tag vp attrs h props none [a, b, c]))
          = ⟨RBranch.softPatch,
              some (DNode.elem pid2 tag vp attrs h props none [a, b]),
              none, removalEvs c⟩) :=
  ⟨fun _ _ _ _ _ => rfl, fun _ _ => rfl, fun _ => rfl,
    fun fuel pid1 pid2 tag vp attrs h props a b c ha hb =>
      replaceRun_trailing_scenario fuel pid1 pid2 tag vp attrs h props a b c ha hb⟩

/-- Witness for C2 at a concrete input: live children `[A, B, C]` with `C`
owned by Component 7 against candidate children `[A, B]`: exactly `C` is
removed, bracketed by Component 7's unmount signals, and `A`, `B` stay. -/
theorem c2_positional_child_diff_witness :
    replaceRun 2
        (some (DNode.elem 10 "DIV" false [] none Props.default0 none
          [DNode.text 1 "A" none,
           DNode.elem 2 "P" false [] none Props.default0 none []]))
        (some (DNode.elem 20 "DIV" false [] none Props.default0 none
          [DNode.text 1 "A" none,
           DNode.elem 2 "P" false [] none Props.default0 none [],
           DNode.elem 3 "SPAN" false [] (some 7) Props.default0 none []]))
      = ⟨RBranch.softPatch,
          some (DNode.elem 20 "DIV" false [] none Props.default0 none
            [DNode.text 1 "A" none,
             DNode.elem 2 "P" false [] none Props.default0 none []]),
          none,
          removalEvs (DNode.elem 3 "SPAN" false [] (some 7) Props.default0 none [])⟩ :=
  c2_positional_child_diff.2.2.2 0 10 20 "DIV" false [] none Props.default0
    (DNode.text 1 "A" none)
    (DNode.elem 2 "P" false [] none Props.default0 none [])
    (DNode.elem 3 "SPAN" false [] (some 7) Props.default0 none [])
    rfl rfl

/-- The shallow property sync of `_copyProps` on one node pair is a no-op:
`value`/`checked`/`indeterminate` agree whenever the live node's prototype
owns `value`, and `selected` and `_data` agree. -/
def propsSyncedOne (n o : DNode) : Bool :=
  (if o.valueProtoOf then
      o.propsOf.value == n.propsOf.value
        && o.propsOf.checked == n.propsOf.checked
        && o.propsOf.indeterminate == n.propsOf.indeterminate
    else true)
    && o.propsOf.selected == n.propsOf.selected
    && o.propsOf.data == n.propsOf.data

/-- `propsSyncedOne` over the element-child pairing of `_copyProps`. -/
def propsSyncedChildren : List DNode → List DNode → Bool
  | _, [] => true
  | newEls, o :: os =>
    if o.isElem then
      match newEls with
      | [] => true
      | n :: ns => propsSyncedOne n o && propsSyncedChildren ns os
    else propsSyncedChildren newEls os

/-- The node pair and its element-child pairs are all property-synced. -/
def propsSyncedDeep (n o : DNode) : Bool :=
  propsSyncedOne n o && propsSyncedChildren n.elemChildren o.childrenOf

theorem copyPropsOne_propCopy (n o : DNode) :
    ∀ e ∈ (copyPropsOne n o).2, e.isPropCopy = true := by
  cases n with
  | text a1 a2 a3 => cases o <;> simp [copyPropsOne]
  | elem i t vp as h p orr cs =>
    cases o with
    | text b1 b2 b3 => simp [copyPropsOne]
    | elem oi ot ovp oas oh op oorr ocs =>
      simp only [copyPropsOne]
      split_ifs <;> simp [Ev.isPropCopy]

theorem copyPropsChildren_propCopy (os : List DNode) :
    ∀ (newEls : List DNode), ∀ e ∈ (copyPropsChildren newEls os).2,
      e.isPropCopy = true := by
  induction os with
  | nil => intro newEls; simp [copyPropsChildren]
  | cons o os ih =>
    intro newEls
    by_cases hel : o.isElem
    · cases newEls with
      | nil => simp [copyPropsChildren, hel]
      | cons n ns =>
        simp only [copyPropsChildren, hel, if_true]
        intro e he
        rcases List.mem_append.mp he with h1 | h1
        · exact copyPropsOne_propCopy n o e h1
        · exact ih ns e h1
    · simp only [copyPropsChildren, hel, Bool.false_eq_true, if_false]
      exact ih newEls

theorem copyProps_propCopy (n o : DNode) (enum : Bool) :
    ∀ e ∈ (copyProps n o enum).2, e.isPropCopy = true := by
  cases enum with
  | false => simpa [copyProps] using copyPropsOne_propCopy n o
  | true =>
    simp only [copyProps, if_true]
    intro e he
    rcases List.mem_append.mp he with h1 | h1
    · exact copyPropsOne_propCopy n o e h1
    · exact copyPropsChildren_propCopy (copyPropsOne n o).1.childrenOf
        n.elemChildren e h1

theorem copyPropsOne_synced (n o : DNode) (hsync : propsSyncedOne n o = true) :
    copyPropsOne n o = (o, []) := by
  cases n with
  | text a1 a2 a3 => cases o <;> rfl
  | elem i t vp as h p orr cs =>
    cases o with
    | text b1 b2 b3 => rfl
    | elem oi ot ovp oas oh op oorr ocs =>
      cases hvp : ovp with
      | true =>
        simp [propsSyncedOne, DNode.valueProtoOf, DNode.propsOf, hvp] at hsync
        obtain ⟨⟨⟨⟨h1, h2⟩, h3⟩, h4⟩, h5⟩ := hsync
        simp [copyPropsOne, hvp, h1, h2, h3, h4, h5]
        rw [← h1, ← h2, ← h3, ← h4, ← h5]
      | false =>
        simp [propsSyncedOne, DNode.valueProtoOf, DNode.propsOf, hvp] at hsync
        obtain ⟨h4, h5⟩ := hsync
        simp [copyPropsOne, hvp, h4, h5]
        rw [← h4, ← h5]

theorem copyPropsChildren_synced (os : List DNode) :
    ∀ (newEls : List DNode), propsSyncedChildren newEls os = true →
      copyPropsChildren newEls os = (os, []) := by
  induction os with
  | nil => intro newEls _; rfl
  | cons o os ih =>
    intro newEls hsync
    by_cases hel : o.isElem
    · cases newEls with
      | nil => simp [copyPropsChildren, hel]
      | cons n ns =>
        simp only [propsSyncedChildren, hel, if_true, Bool.and_eq_true] at hsync
        simp [copyPropsChildren, hel, copyPropsOne_synced n o hsync.1,
          ih ns hsync.2]
    · simp only [propsSyncedChildren, hel, Bool.false_eq_true, if_false] at hsync
      simp [copyPropsChildren, hel, ih newEls hsync]

theorem copyProps_synced (n o : DNode) (hsync : propsSyncedDeep n o = true) :
    copyProps n o true = (o, []) := by
  simp only [propsSyncedDeep, Bool.and_eq_true] at hsync
  simp [copyProps, copyPropsOne_synced n o hsync.1,
    copyPropsChildren_synced o.childrenOf n.elemChildren hsync.2,
    DNode.withChildren_self]

/-- Concrete C4 input: a freshly rendered `<input>` whose live `value`
property is "x". -/
def c4cand : DNode :=
  .elem 11 "INPUT" true [] none ⟨"x", false, false, false, none⟩ none []

/-- Concrete C4 live node: host-structurally equal to `c4cand` (same tag,
attributes and children) but its live `value` property is "y". -/
def c4live : DNode :=
  .elem 12 "INPUT" true [] none ⟨"y", false, false, false, none⟩ none []

/-- Counterexample to C4: the candidate is soft-replaceable against the live
node and `isEqualNode` holds, yet reconciling performs a mutation call — the
shallow property sync writes `value` — so the live node is not left
byte-for-byte unchanged and the mutation-call count is not zero. -/
theorem c4_counterexample :
    soft_replacable c4cand c4live = true
    ∧ isEqualNode c4cand c4live = true
    ∧ (replaceRun 1 (some c4cand) (some c4live)).evs = [Ev.setValue 12 "x"]
    ∧ (replaceRun 1 (some c4cand) (some c4live)).evs ≠ []
    ∧ ((replaceRun 1 (some c4cand) (some c4live)).occupant.map DNode.propsOf)
        ≠ some c4live.propsOf := by
  refine ⟨by decide, by decide, by decide, by decide, by decide⟩

/-- C4 (amended): when the candidate is soft-replaceable against the live
node and the live node is host-structurally equal (`isEqualNode`) to it, the
reconciler performs no attribute or child-list mutation — its entire trace is
the shallow property sync of `_copyProps` (`value`, `checked`,
`indeterminate`, `selected`, `_data`, on the node and its element children),
which writes only properties whose values differ; when all those properties
already agree, the trace is empty and the live node is unchanged. -/
theorem c4_soft_equal_prop_sync (fuel : Nat) (cand old : DNode)
    (hs : soft_replacable (resolveOrig cand) old = true)
    (he : isEqualNode (resolveOrig cand) old = true) :
    (replaceRun (fuel + 1) (some cand) (some old)).branch = RBranch.softPatch
    ∧ (replaceRun (fuel + 1) (some cand) (some old)).ret = none
    ∧ (replaceRun (fuel + 1) (some cand) (some old)).evs
        = (copyProps (resolveOrig cand) old true).2
    ∧ (∀ e ∈ (replaceRun (fuel + 1) (some cand) (some old)).evs,
        e.isPropCopy = true)
    ∧ (propsSyncedDeep (resolveOrig cand) old = true →
        (replaceRun (fuel + 1) (some cand) (some old)).evs = []
        ∧ (replaceRun (fuel + 1) (some cand) (some old)).occupant = some old) := by
  have hrun : replaceRun (fuel + 1) (some cand) (some old)
      = ⟨RBranch.softPatch, some (copyProps (resolveOrig cand) old true).1, none,
          (copyProps (resolveOrig cand) old true).2⟩ := by
    rw [replaceRun]
    simp [hs, he]
    intro id v h2 oi value oh hc ho
    rw [hc] at hs
    simp [soft_replacable, DNode.isElem] at hs
  rw [hrun]
  refine ⟨rfl, rfl, rfl, copyProps_propCopy (resolveOrig cand) old true, ?_⟩
  intro hsync
  have hcp := copyProps_synced (resolveOrig cand) old hsync
  simp [hcp]

/-- Witness for the amended C4 at a concrete input: reconciling two
identically rendered `<input>` nodes with agreeing properties performs no
mutation at all. -/
theorem c4_soft_equal_prop_sync_witness :
    (replaceRun 1 (some c4cand) (some c4cand)).evs = []
    ∧ (replaceRun 1 (some c4cand) (some c4cand)).occupant = some c4cand :=
  (c4_soft_equal_prop_sync 0 c4cand c4cand (by decide) (by decide)).2.2.2.2
    (by decide)

/-! Scheduler / coalescing model of `react` (caldom.js 1010-1038) and of the
pass execution it performs from the animation-frame callback (1072-1132).
The changed-key ledger `_watch_state_changed_keys` is a JS object: keys map
to `some true` (a set), `some false` (a deletion) — recorded by the watch
callback — or to the JS `undefined` (`none`, recorded under the literal key
"undefined" by a zero-argument `react()` call, 1026 with both parameters
absent). -/

/-- The `_watch_state_changed_keys` object: insertion-ordered key/value
bindings, assignment overwrites in place. -/
abbrev Ledger := List (String × Option Bool)

/-- JS object property assignment `obj[k] = v`. -/
def setKey : Ledger → String → Option Bool → Ledger
  | [], k, v => [(k, v)]
  | (k2, v2) :: rest, k, v =>
    if k2 == k then (k2, v) :: rest else (k2, v2) :: setKey rest k v

/-- JS object property read `obj[k]` (`none` when the key is absent). -/
def lookupKey (k : String) : Ledger → Option (Option Bool)
  | [] => none
  | (k2, v2) :: rest => if k2 == k then some v2 else lookupKey k rest

/-- The scheduling state of a reactive Component: the `watched` flag, whether
an `update` function is configured, the scheduled-pass handle `_z`, the
changed-key ledger, the change count, and a counter supplying fresh
animation-frame handles (each `requestAnimationFrame` call returns a fresh
handle). -/
structure RComp where
  watched : Bool
  hasUpdate : Bool
  z : Option Nat
  changedKeys : Ledger
  changeCount : Nat
  nextH : Nat
  deriving DecidableEq

/-- caldom.js 1010-1038 entered from the watch callback:
`react(undefined, undefined, true, key, is_available)` (1062-1064).  Five
arguments are present, so the `watched && zero-arguments` early return (1015)
does not fire; `_is_watched_updated` is true so the scheduling branch (1018)
runs: when an `update` function exists the change count is incremented and
the ledger records the key (1020-1027); if `_z` is already set nothing is
rescheduled (1029-1031), otherwise an animation-frame callback is recorded in
`_z` (1033-1035).  Returns the new state and whether a frame callback was
newly recorded. -/
def reactMut (c : RComp) (key : String) (avail : Bool) : RComp × Bool :=
  let c1 := if c.hasUpdate then
      { c with changeCount := c.changeCount + 1,
               changedKeys := setKey c.changedKeys key (some avail) }
    else c
  match c1.z with
  | some _ => (c1, false)
  | none => ({ c1 with z := some c1.nextH, nextH := c1.nextH + 1 }, true)

/-- caldom.js 1010-1038 entered as a zero-argument explicit `react()` call:
line 1015 returns immediately when `watched` is truthy; otherwise the
scheduling branch runs (zero arguments and not the frame callback), with no
count increment (1022 guard) and, when `update` exists, the ledger assignment
1026 storing the JS `undefined` under the key "undefined". -/
def reactZero (c : RComp) : RComp × Bool :=
  if c.watched then (c, false)
  else
    let c1 := if c.hasUpdate then
        { c with changedKeys := setKey c.changedKeys "undefined" none }
      else c
    match c1.z with
    | some _ => (c1, false)
    | none => ({ c1 with z := some c1.nextH, nextH := c1.nextH + 1 }, true)

/-- A burst of state mutations before the frame boundary: apply the watch
callback for each `(key, is_available)` pair in order, counting how many
animation-frame callbacks get recorded. -/
def applyMuts : RComp → List (String × Bool) → RComp × Nat
  | c, [] => (c, 0)
  | c, (k, av) :: rest =>
    let r := reactMut c k av
    let r2 := applyMuts r.1 rest
    (r2.1, (if r.2 then 1 else 0) + r2.2)

/-- The last value a mutation burst writes for a key, if any. -/
def lastVal (k : String) : List (String × Bool) → Option Bool
  | [] => none
  | (k2, v) :: rest =>
    match lastVal k rest with
    | some w => some w
    | none => if k2 == k then some v else none

theorem lookupKey_setKey (ks : Ledger) (k k2 : String) (v : Option Bool) :
    lookupKey k (setKey ks k2 v) = if k2 == k then some v else lookupKey k ks := by
  induction ks with
  | nil => by_cases h : k2 == k <;> simp_all [setKey, lookupKey]
  | cons p rest ih =>
    by_cases h1 : p.1 == k2
    · have h1e : p.1 = k2 := by simpa using h1
      by_cases h2 : k2 == k <;>
        simp_all [setKey, lookupKey]
    · by_cases h2 : k2 == k
      · have h2e : k2 = k := by simpa using h2
        have : ¬(p.1 == k) := by
          subst h2e
          exact h1
        simp_all [setKey, lookupKey]
      · simp_all [setKey, lookupKey]

theorem applyMuts_scheduled (muts : List (String × Bool)) :
    ∀ (c : RComp) (h0 : Nat), c.hasUpdate = true → c.z = some h0 →
      (applyMuts c muts).1.z = some h0
      ∧ (applyMuts c muts).2 = 0
      ∧ (applyMuts c muts).1.changeCount = c.changeCount + muts.length
      ∧ (applyMuts c muts).1.changedKeys
          = muts.foldl (fun ks m => setKey ks m.1 (some m.2)) c.changedKeys := by
  induction muts with
  | nil => intro c h0 hu hz; simp [applyMuts, hz]
  | cons m rest ih =>
    intro c h0 hu hz
    have step : reactMut c m.1 m.2
        = ({ c with
              changeCount := c.changeCount + 1,
              changedKeys := setKey c.changedKeys m.1 (some m.2) }, false) := by
      simp [reactMut, hu, hz]
    have ih2 := ih
      { c with
          changeCount := c.changeCount + 1,
          changedKeys := setKey c.changedKeys m.1 (some m.2) } h0 hu hz
    simp [applyMuts, step, ih2.1, ih2.2.1, ih2.2.2.1, ih2.2.2.2]
    omega

theorem lookupKey_foldl (muts : List (String × Bool)) :
    ∀ (ks : Ledger) (k : String),
      lookupKey k (muts.foldl (fun ks m => setKey ks m.1 (some m.2)) ks)
        = (match lastVal k muts with
            | some v => some (some v)
            | none => lookupKey k ks) := by
  induction muts with
  | nil => intro ks k; simp [lastVal]
  | cons m rest ih =>
    intro ks k
    simp only [List.foldl_cons, lastVal]
    rw [ih]
    cases hrest : lastVal k rest with
    | some w => simp
    | none =>
      by_cases hk : m.1 == k <;> simp [lookupKey_setKey, hk]

/-- Concrete C3 input: a watched Component with no `update` function, in the
idle scheduling state with an empty ledger. -/
def c3noUpdate : RComp := ⟨true, false, none, [], 0, 0⟩

/-- Counterexample to C3: for a watched Component without an `update`
function, one state mutation does schedule a pass, but the changed-key ledger
stays empty and the change count stays 0 instead of equalling N = 1 — the
ledger accumulation at caldom.js 1020-1027 is guarded by the presence of
`update`. -/
theorem c3_counterexample :
    c3noUpdate.watched = true
    ∧ (applyMuts c3noUpdate [("a", true)]).2 = 1
    ∧ (applyMuts c3noUpdate [("a", true)]).1.changeCount ≠ 1
    ∧ lookupKey "a" (applyMuts c3noUpdate [("a", true)]).1.changedKeys = none := by
  refine ⟨rfl, rfl, by decide, rfl⟩

/-- C3 (amended): for a watched Component with an `update` function starting
idle with a reset ledger, any burst of N >= 1 state mutations before the
frame boundary records exactly one animation-frame callback (the first
mutation schedules it, later ones do not reschedule: the handle stays the one
allocated first), the change count afterwards equals N (repeated touches of
the same key counted separately), and the ledger maps exactly the touched
keys, each to `some true` for a set and `some false` for a deletion, the last
touch winning. -/
theorem c3_change_coalescing (c : RComp) (muts : List (String × Bool))
    (_hw : c.watched = true) (hu : c.hasUpdate = true) (hz : c.z = none)
    (hk : c.changedKeys = []) (hc : c.changeCount = 0) (hne : muts ≠ []) :
    (applyMuts c muts).2 = 1
    ∧ (applyMuts c muts).1.z = some c.nextH
    ∧ (applyMuts c muts).1.changeCount = muts.length
    ∧ ∀ k, lookupKey k (applyMuts c muts).1.changedKeys
        = (lastVal k muts).map some := by
  cases muts with
  | nil => exact absurd rfl hne
  | cons m rest =>
    have step : reactMut c m.1 m.2
        = ({ c with
              changeCount := c.changeCount + 1,
              changedKeys := setKey c.changedKeys m.1 (some m.2),
              z := some c.nextH,
              nextH := c.nextH + 1 }, true) := by
      simp [reactMut, hu, hz]
    have ih2 := applyMuts_scheduled rest
      { c with
          changeCount := c.changeCount + 1,
          changedKeys := setKey c.changedKeys m.1 (some m.2),
          z := some c.nextH,
          nextH := c.nextH + 1 } c.nextH hu rfl
    have h3 := ih2.2.2.1
    have h4 := ih2.2.2.2
    dsimp only at h3 h4
    refine ⟨?_, ?_, ?_, ?_⟩
    · simp [applyMuts, step, ih2.2.1]
    · simp [applyMuts, step, ih2.1]
    · simp only [applyMuts, step]
      rw [h3, hc]
      simp only [List.length_cons]
      omega
    · intro k
      have h5 := lookupKey_foldl (m :: rest) [] k
      simp only [List.foldl_cons] at h5
      simp only [applyMuts, step]
      rw [h4, hk, h5]
      cases lastVal k (m :: rest) <;> simp [lookupKey]

/-- Witness for the amended C3 at a concrete input: three mutations
(`a` set, `b` deleted, `a` set again) starting idle give one scheduled frame
callback, a change count of 3, and a ledger mapping `a` to `some true` and
`b` to `some false`. -/
theorem c3_change_coalescing_witness :
    (applyMuts ⟨true, true, none, [], 0, 0⟩
        [("a", true), ("b", false), ("a", true)]).2 = 1
    ∧ (applyMuts ⟨true, true, none, [], 0, 0⟩
        [("a", true), ("b", false), ("a", true)]).1.changeCount = 3
    ∧ lookupKey "a" (applyMuts ⟨true, true, none, [], 0, 0⟩
        [("a", true), ("b", false), ("a", true)]).1.changedKeys
        = some (some true)
    ∧ lookupKey "b" (applyMuts ⟨true, true, none, [], 0, 0⟩
        [("a", true), ("b", false), ("a", true)]).1.changedKeys
        = some (some false) :=
  have h := c3_change_coalescing ⟨true, true, none, [], 0, 0⟩
    [("a", true), ("b", false), ("a", true)] rfl rfl rfl rfl rfl (by decide)
  ⟨h.1, h.2.2.1, by rw [h.2.2.2 "a"]; decide, by rw [h.2.2.2 "b"]; decide⟩

/-- Concrete C6 input: a watched Component with an `update` function, idle. -/
def c6watched : RComp := ⟨true, true, none, [], 0, 0⟩

/-- Counterexample to C6: an explicit zero-argument `react()` call on an idle
Component whose `watched` flag is true returns immediately (caldom.js 1015)
— nothing is scheduled and the state is untouched — so the claim's
"regardless of the value of the watched flag" is false. -/
theorem c6_counterexample :
    c6watched.watched = true
    ∧ c6watched.z = none
    ∧ (reactZero c6watched).2 = false
    ∧ (reactZero c6watched).1 = c6watched := by
  refine ⟨rfl, rfl, rfl, rfl⟩

/-- C6 (amended): for a Component whose scheduler is idle, an explicit
zero-argument `react()` call records a platform animation-frame callback and
moves to the scheduled state provided the `watched` flag is falsy; when
`watched` is truthy the call is an immediate no-op.  (While scheduling, when
an `update` function exists, the ledger assignment of caldom.js 1026 runs
with both parameters absent, storing `undefined` under the key
"undefined".) -/
theorem c6_zero_arg_schedules (c : RComp) (hz : c.z = none) :
    (c.watched = false →
      (reactZero c).2 = true
      ∧ (reactZero c).1.z = some c.nextH
      ∧ (reactZero c).1.changeCount = c.changeCount
      ∧ (c.hasUpdate = true →
          (reactZero c).1.changedKeys = setKey c.changedKeys "undefined" none)
      ∧ (c.hasUpdate = false → (reactZero c).1.changedKeys = c.changedKeys))
    ∧ (c.watched = true → (reactZero c).2 = false ∧ (reactZero c).1 = c) := by
  constructor
  · intro hw
    cases hu : c.hasUpdate <;>
      simp [reactZero, hw, hu, hz]
  · intro hw
    simp [reactZero, hw]

/-- Witness for the amended C6 at a concrete input: an unwatched idle
Component with an `update` function gets a frame callback recorded by a
zero-argument `react()`. -/
theorem c6_zero_arg_schedules_witness :
    (reactZero ⟨false, true, none, [], 0, 5⟩).2 = true
    ∧ (reactZero ⟨false, true, none, [], 0, 5⟩).1.z = some 5 :=
  have h := (c6_zero_arg_schedules ⟨false, true, none, [], 0, 5⟩ rfl).1 rfl
  ⟨h.1, h.2.1⟩

/-- State consulted by the pass-execution part of `react` (caldom.js
1072-1132) when entered from the animation-frame callback
`react(undefined, undefined, undefined, undefined, undefined, undefined,
true)` (1033-1035).  `updateReturns` models the boolean the user `update`
function returns when called. -/
structure PComp where
  mounted : Bool
  hasFirstElem : Bool
  firstConnected : Bool
  firstHasH : Bool
  hasUpdate : Bool
  hasRender : Bool
  updateReturns : Bool
  z : Option Nat
  changedKeys : Ledger
  changeCount : Nat
  deriving DecidableEq

/-- How the pass ends. -/
inductive PassOutcome where
  | abortedNotMounted   -- 1082: nothing to render yet, return untouched
  | completedViaUpdate  -- 1091-1094: update() falsy, _didUpdate, return
  | typeErrorNoRender   -- 1110: `_this["render"]` is undefined, host TypeError
  | proceededToRender   -- 1110 onwards: render() and the reconciler run
  deriving DecidableEq

/-- Calls observable during the pass. -/
inductive PEv where
  | updateCalled (keys : Ledger) (count : Nat)
  | didUpdateFired
  | renderCalled
  deriving DecidableEq

/-- caldom.js 1072-1132 entered from the animation-frame callback (so
`_is_watched_updated`, `state`, `config` and `_mounting` are all undefined
and `_is_request_animation_frame` is true; the scheduling branch 1018 is
skipped).  `_z` is cleared (1072); if not mounted, the component mounts when
its first element exists and is connected and otherwise aborts (1077-1084);
`is_parent_re_react_call` is false since `_mounting` is undefined; `update`
is called when present and either no `render` exists or the first render is
done (1088-1096), a falsy return completing the pass via `_didUpdate`
(ledger and count reset, 859-866); otherwise `_this["render"]` is invoked —
a host TypeError when no `render` function exists (the exception propagates:
nothing further runs).  The render-and-reconcile continuation itself is the
`replaceRun` model above. -/
def runPassRaf (c0 : PComp) : PComp × PassOutcome × List PEv :=
  let c := { c0 with z := none }
  if !c.mounted && !(c.hasFirstElem && c.firstConnected) then
    (c, .abortedNotMounted, [])
  else
    let c := if !c.mounted then { c with mounted := true } else c
    if c.hasUpdate && (!c.hasRender || (c.hasFirstElem && c.firstHasH)) then
      let evs := [PEv.updateCalled c.changedKeys c.changeCount]
      if !c.updateReturns then
        ({ c with changedKeys := [], changeCount := 0 }, .completedViaUpdate,
          evs ++ [PEv.didUpdateFired])
      else if c.hasRender then (c, .proceededToRender, evs ++ [PEv.renderCalled])
      else (c, .typeErrorNoRender, evs)
    else if c.hasRender then (c, .proceededToRender, [PEv.renderCalled])
    else (c, .typeErrorNoRender, [])

/-- C9: for a mounted Component configured with an `update` function but no
`render` function, a truthy `update` return makes the pass fall through to
calling the absent `render`, raising the host TypeError: the pass does not
complete, the changed-key ledger and count are not reset, and `didUpdate`
does not fire.  A falsy `update` return is the only way such a pass
completes: the ledger and count are then reset and `didUpdate` fires. -/
theorem c9_renderless_update_truthy (c : PComp)
    (hm : c.mounted = true) (hu : c.hasUpdate = true) (hr : c.hasRender = false) :
    (c.updateReturns = true →
      (runPassRaf c).2.1 = PassOutcome.typeErrorNoRender
      ∧ (runPassRaf c).1.changedKeys = c.changedKeys
      ∧ (runPassRaf c).1.changeCount = c.changeCount
      ∧ PEv.didUpdateFired ∉ (runPassRaf c).2.2)
    ∧ (c.updateReturns = false →
      (runPassRaf c).2.1 = PassOutcome.completedViaUpdate
      ∧ (runPassRaf c).1.changedKeys = []
      ∧ (runPassRaf c).1.changeCount = 0
      ∧ PEv.didUpdateFired ∈ (runPassRaf c).2.2) := by
  constructor
  · intro hur
    simp [runPassRaf, hm, hu, hr, hur]
  · intro hur
    simp [runPassRaf, hm, hu, hr, hur]

/-- Witness for C9 at concrete inputs: a mounted render-less Component with a
non-empty ledger keeps it intact under a truthy `update` (TypeError path),
and resets it under a falsy `update` (completed path). -/
theorem c9_renderless_update_truthy_witness :
    ((runPassRaf ⟨true, true, true, true, true, false, true, none,
        [("a", some true)], 1⟩).2.1 = PassOutcome.typeErrorNoRender
      ∧ (runPassRaf ⟨true, true, true, true, true, false, true, none,
          [("a", some true)], 1⟩).1.changedKeys = [("a", some true)])
    ∧ ((runPassRaf ⟨true, true, true, true, true, false, false, none,
        [("a", some true)], 1⟩).2.1 = PassOutcome.completedViaUpdate
      ∧ (runPassRaf ⟨true, true, true, true, true, false, false, none,
          [("a", some true)], 1⟩).1.changedKeys = []) :=
  have h1 := (c9_renderless_update_truthy
    ⟨true, true, true, true, true, false, true, none, [("a", some true)], 1⟩
    rfl rfl rfl).1 rfl
  have h2 := (c9_renderless_update_truthy
    ⟨true, true, true, true, true, false, false, none, [("a", some true)], 1⟩
    rfl rfl rfl).2 rfl
  ⟨⟨h1.1, h1.2.1⟩, ⟨h2.1, h2.2.1⟩⟩

/-! Model of the change-observation proxy `watch` (caldom.js 1297-1330):
its `set` and `deleteProperty` traps over a single underlying object (C5),
and its `get` trap over a heap of nested objects (C10).  JS values are
modelled by `JVal`; a `Proxy` allocation is modelled by drawing a fresh
proxy id from a counter, since each `new Proxy(...)` call produces a new,
reference-distinct host object. -/

inductive JVal where
  | undef
  | nullv
  | boolV (b : Bool)
  | num (n : Int)
  | str (s : String)
  | objRef (id : Nat)   -- a plain object / array / map, by heap id
  | compRef (id : Nat)  -- a CalDom instance
  deriving DecidableEq

/-- One underlying JS object: insertion-ordered property bindings. -/
abbrev JObj := List (String × JVal)

/-- Property read `obj[k]` (`undef` when absent, as in JS). -/
def lookupF (k : String) : JObj → Option JVal
  | [] => none
  | (k2, v) :: rest => if k2 == k then some v else lookupF k rest

/-- Property write `obj[k] = v`: overwrite in place or append. -/
def setF (o : JObj) (k : String) (v : JVal) : JObj :=
  match o with
  | [] => [(k, v)]
  | (k2, v2) :: rest =>
    if k2 == k then (k2, v) :: rest else (k2, v2) :: setF rest k v

/-- Property deletion `delete obj[k]`. -/
def delF (o : JObj) (k : String) : JObj :=
  o.filter (fun p => !(p.1 == k))

/-- Observable steps of the `set`/`deleteProperty` traps.  The `callback`
event records the value the underlying object holds for the key at the
moment the callback body runs. -/
inductive WEv where
  | write (k : String) (v : JVal)
  | deleteKey (k : String)
  | callback (k : String) (avail : Bool) (atCb : Option JVal)
  deriving DecidableEq

/-- caldom.js 1315-1320, the `set` trap: `obj[key] = value;
onSetCallback(key, true); return true` — the write happens first, then the
callback runs (observing the already-updated object). -/
def watchSet (o : JObj) (k : String) (v : JVal) : JObj × List WEv :=
  let o1 := setF o k v
  (o1, [WEv.write k v, WEv.callback k true (lookupF k o1)])

/-- caldom.js 1322-1327, the `deleteProperty` trap: `delete obj[key];
onSetCallback(key, false); return true` — deletion first, then callback. -/
def watchDelete (o : JObj) (k : String) : JObj × List WEv :=
  let o1 := delF o k
  (o1, [WEv.deleteKey k, WEv.callback k false (lookupF k o1)])

theorem lookupF_setF (o : JObj) (k : String) (v : JVal) :
    lookupF k (setF o k v) = some v := by
  induction o with
  | nil => simp [setF, lookupF]
  | cons p rest ih =>
    by_cases h : p.1 == k <;> simp [setF, lookupF, h, ih]

theorem lookupF_delF (o : JObj) (k : String) :
    lookupF k (delF o k) = none := by
  induction o with
  | nil => rfl
  | cons p rest ih =>
    by_cases h : p.1 == k <;> simp [delF, lookupF, h, ih] <;>
      simpa [delF] using ih

/-- Counterexample to C5: writing `a := 2` over an object holding `a = 1`
produces the trace `[write, callback]` — the write comes first — and the
callback observes the post-write value `2`, not the pre-write value `1`
claimed. -/
theorem c5_counterexample :
    (watchSet [("a", JVal.num 1)] "a" (JVal.num 2)).2
      = [WEv.write "a" (JVal.num 2),
         WEv.callback "a" true (some (JVal.num 2))]
    ∧ (watchSet [("a", JVal.num 1)] "a" (JVal.num 2)).2
      ≠ [WEv.callback "a" true (some (JVal.num 1)),
         WEv.write "a" (JVal.num 2)]
    ∧ (some (JVal.num 2) : Option JVal) ≠ some (JVal.num 1) := by
  refine ⟨rfl, by decide, by decide⟩

/-- C5 (amended): for every wrapped value and property key, a write first
performs the write onto the underlying object and then invokes the callback
with `(key, true)` — at the moment the callback runs the underlying object
already holds the new value; a delete first performs the deletion and then
invokes the callback with `(key, false)` — at callback time the key is
already absent. -/
theorem c5_write_then_callback (o : JObj) (k : String) (v : JVal) :
    watchSet o k v
      = (setF o k v, [WEv.write k v, WEv.callback k true (some v)])
    ∧ watchDelete o k
      = (delF o k, [WEv.deleteKey k, WEv.callback k false none]) := by
  constructor
  · simp [watchSet, lookupF_setF]
  · simp [watchDelete, lookupF_delF]

/-- A heap of underlying objects, addressed by `objRef` id. -/
abbrev ObjHeap := List (Nat × JObj)

/-- Heap object lookup. -/
def lookupObj (i : Nat) : ObjHeap → Option JObj
  | [] => none
  | (i2, o) :: rest => if i2 == i then some o else lookupObj i rest

/-- `obj[key]` over the heap (`undef` when object or key absent). -/
def heapGet (h : ObjHeap) (t : Nat) (k : String) : JVal :=
  match lookupObj t h with
  | some o => (lookupF k o).getD JVal.undef
  | none => JVal.undef

/-- `typeof destination == 'object'` (true for null, plain objects and
CalDom instances). -/
def typeofObject : JVal → Bool
  | .nullv => true
  | .objRef _ => true
  | .compRef _ => true
  | _ => false

/-- `destination instanceof CalDom`. -/
def isCalDomVal : JVal → Bool
  | .compRef _ => true
  | _ => false

/-- Result of the `get` trap: either the raw value or a freshly allocated
proxy wrapping a target object. -/
inductive GetRes where
  | raw (v : JVal)
  | proxyRes (target : Nat) (pid : Nat)
  deriving DecidableEq

/-- `key[0] == "_"`: whether the key's first character is an underscore
(false for the empty key, whose `key[0]` is undefined). -/
def keyUnderscoreFirst (k : String) : Bool :=
  k.data.head? == some '_'

/-- caldom.js 1304-1313, the `get` trap: read the destination; when it is an
object, not null, not a CalDom instance, and the key does not start with an
underscore (`key[0] != "_"`), return `new Proxy(destination, this)` — a
fresh proxy (fresh `pid` from the allocation counter) around the same
destination object; otherwise return the destination itself. -/
def watchGet (h : ObjHeap) (t : Nat) (k : String) (ctr : Nat) : GetRes × Nat :=
  let dest := heapGet h t k
  if typeofObject dest && !(dest == JVal.nullv) && !(isCalDomVal dest)
      && !(keyUnderscoreFirst k) then
    match dest with
    | .objRef i => (.proxyRes i ctr, ctr + 1)
    | _ => (.raw dest, ctr)  -- unreachable under the guard
  else (.raw dest, ctr)

/-- C10: reading the same nested-object key twice through the watch proxy
returns two wrappers that are not reference-identical (fresh proxy ids), yet
both wrap the very same underlying object. -/
theorem c10_fresh_proxy_per_read (h : ObjHeap) (t : Nat) (k : String)
    (ctr i : Nat) (hd : heapGet h t k = JVal.objRef i)
    (hk : keyUnderscoreFirst k = false) :
    (watchGet h t k ctr).1 = GetRes.proxyRes i ctr
    ∧ (watchGet h t k (watchGet h t k ctr).2).1 = GetRes.proxyRes i (ctr + 1)
    ∧ (watchGet h t k ctr).1 ≠ (watchGet h t k (watchGet h t k ctr).2).1
    ∧ ∃ tgt, (watchGet h t k ctr).1 = GetRes.proxyRes tgt ctr
        ∧ (watchGet h t k (watchGet h t k ctr).2).1
            = GetRes.proxyRes tgt (ctr + 1) := by
  have h1 : watchGet h t k ctr = (.proxyRes i ctr, ctr + 1) := by
    simp [watchGet, hd, hk, typeofObject, isCalDomVal]
  have h2 : watchGet h t k (ctr + 1) = (.proxyRes i (ctr + 1), ctr + 2) := by
    simp [watchGet, hd, hk, typeofObject, isCalDomVal]
  refine ⟨by simp [h1], by simp [h1, h2], ?_, i, by simp [h1], by simp [h1, h2]⟩
  rw [h1]
  simp only [h2]
  simp

/-- Witness for C10 at a concrete input: key "a" of object 0 holds object 3;
two reads yield proxies with ids 0 and 1 around target 3. -/
theorem c10_fresh_proxy_per_read_witness :
    (watchGet [(0, [("a", JVal.objRef 3)])] 0 "a" 0).1 = GetRes.proxyRes 3 0
    ∧ (watchGet [(0, [("a", JVal.objRef 3)])] 0 "a"
        (watchGet [(0, [("a", JVal.objRef 3)])] 0 "a" 0).2).1
      = GetRes.proxyRes 3 1
    ∧ (watchGet [(0, [("a", JVal.objRef 3)])] 0 "a" 0).1
      ≠ (watchGet [(0, [("a", JVal.objRef 3)])] 0 "a"
          (watchGet [(0, [("a", JVal.objRef 3)])] 0 "a" 0).2).1 :=
  have h := c10_fresh_proxy_per_read [(0, [("a", JVal.objRef 3)])] 0 "a" 0 3
    (by decide) (by decide)
  ⟨h.1, h.2.1, h.2.2.1⟩

/-! Model of the insertion engine `insertBefore` (caldom.js 1340-1405).
Inputs are JS values (`InsVal`); the model records, in order, the lifecycle
signals fired and the host insert calls performed.  Positions ("insert
before" handling) are outside every claim and are not tracked. -/

/-- One entry of the ordered item list handed to append/prepend. -/
inductive InsVal where
  | undef
  | nullv
  | boolV (b : Bool)
  | num (n : Int)
  | str (s : String)
  | node (id : Nat)                                      -- a raw DOM node
  | comp (cid : Nat) (elems : List InsVal)
      (stagedV : Option (List InsVal))                   -- a CalDom instance: elems plus the staged `_v` clone set
  | arr (xs : List InsVal)                               -- an array-like

/-- JS truthiness of an entry (`if (!this_item) continue`). -/
def InsVal.truthy : InsVal → Bool
  | .undef => false
  | .nullv => false
  | .boolV b => b
  | .num n => !(n == 0)
  | .str s => !(s == "")
  | _ => true

/-- `typeof x == 'object'` (null, nodes, CalDom instances and arrays). -/
def InsVal.typeofObj : InsVal → Bool
  | .nullv => true
  | .node _ => true
  | .comp _ _ _ => true
  | .arr _ => true
  | _ => false

/-- Observable steps of one `insertBefore` run. -/
inductive IEv where
  | willMount (cid : Nat)
  | didMount (cid : Nat)
  | insertText (v : InsVal)   -- value converted by createTextNode, inserted
  | insertNode (v : InsVal)   -- object handed to the native insert function

/-- caldom.js 1382-1395, the inner element loop over `new_elems`: falsy
entries are skipped (`if (!new_elem) continue`), a non-object value is
converted to a text node (1386-1388), anything else is handed to the native
insert function as-is. -/
def innerOne (e : InsVal) : List IEv :=
  if !e.truthy then []
  else if !e.typeofObj then [IEv.insertText e]
  else [IEv.insertNode e]

/-- The inner loop over a contributed element list. -/
def innerInsert (xs : List InsVal) : List IEv :=
  xs.flatMap innerOne

/-- caldom.js 1357-1401, the body run for one item of the outer loop: a falsy
item is skipped silently (1359); a CalDom instance (`is_caldom`, detected by
its `elems` property, 1363) fires `_willMount`, contributes `_v || elems`
(1368) and fires `_didMount` after its nodes are inserted (1397-1400); an
array-like is flattened one level into the inner loop (1371-1373); any other
truthy value goes through the inner loop as a one-element list (1375). -/
def processItem (it : InsVal) : List IEv :=
  if !it.truthy then []
  else
    match it with
    | .comp cid es v =>
      [IEv.willMount cid]
        ++ innerInsert (match v with | some xs => xs | none => es)
        ++ [IEv.didMount cid]
    | .arr xs => innerInsert xs
    | x => innerInsert [x]

/-- caldom.js 1357-1401: the outer loop over the item list. -/
def insertBeforeRun (items : List InsVal) : List IEv :=
  items.flatMap processItem

/-- Counterexample to C7: the entries `0` and `""` are neither null nor
undefined, yet the insertion engine skips them silently (the outer loop
tests JS truthiness, not null/undefined), so they are not converted to text
nodes and not inserted. -/
theorem c7_counterexample :
    insertBeforeRun [InsVal.num 0] = []
    ∧ insertBeforeRun [InsVal.str ""] = []
    ∧ ([] : List IEv) ≠ [IEv.insertText (InsVal.num 0)]
    ∧ ([] : List IEv) ≠ [IEv.insertText (InsVal.str "")] := by
  refine ⟨rfl, rfl, by simp, by simp⟩

/-- C7 (amended): the insertion engine processes its ordered item list
entry-wise: every falsy entry (null, undefined, false, numeric zero, the
empty string) is skipped silently; a Component entry fires its mount-begin
signal, contributes its staged clone set when present and its own elements
otherwise (each contributed entry inserted, falsy ones skipped, non-object
plain values as text nodes), then fires mount-complete; a truthy plain value
that is not an object is converted to a text node and inserted; a raw node
is inserted as-is; and an array-like entry is flattened exactly one level
into the inner loop. -/
theorem c7_insertion_dispatch :
    (∀ it : InsVal, it.truthy = false → processItem it = [])
    ∧ (∀ (cid : Nat) (es xs : List InsVal),
        processItem (InsVal.comp cid es (some xs))
          = [IEv.willMount cid] ++ innerInsert xs ++ [IEv.didMount cid])
    ∧ (∀ (cid : Nat) (es : List InsVal),
        processItem (InsVal.comp cid es none)
          = [IEv.willMount cid] ++ innerInsert es ++ [IEv.didMount cid])
    ∧ (∀ xs : List InsVal, processItem (InsVal.arr xs) = innerInsert xs)
    ∧ (∀ n : Int, n ≠ 0 →
        processItem (InsVal.num n) = [IEv.insertText (InsVal.num n)])
    ∧ (∀ s : String, s ≠ "" →
        processItem (InsVal.str s) = [IEv.insertText (InsVal.str s)])
    ∧ (∀ id2 : Nat, processItem (InsVal.node id2) = [IEv.insertNode (InsVal.node id2)])
    ∧ (∀ items : List InsVal,
        insertBeforeRun items = items.flatMap processItem) := by
  refine ⟨?_, ?_, ?_, ?_, ?_, ?_, ?_, fun items => rfl⟩
  · intro it h
    simp [processItem, h]
  · intro cid es xs
    simp [processItem, InsVal.truthy]
  · intro cid es
    simp [processItem, InsVal.truthy]
  · intro xs
    simp [processItem, InsVal.truthy]
  · intro n h
    simp [processItem, innerInsert, innerOne, InsVal.truthy, InsVal.typeofObj, h]
  · intro s h
    simp [processItem, innerInsert, innerOne, InsVal.truthy, InsVal.typeofObj, h]
  · intro id2
    simp [processItem, innerInsert, innerOne, InsVal.truthy, InsVal.typeofObj]

/-- Witness for the amended C7 at concrete inputs: a Component with a staged
clone set containing a node and a falsy hole, an array-like with a string,
and a plain number. -/
theorem c7_insertion_dispatch_witness :
    processItem (InsVal.comp 4 [InsVal.node 9] (some [InsVal.node 5, InsVal.nullv]))
      = [IEv.willMount 4, IEv.insertNode (InsVal.node 5), IEv.didMount 4]
    ∧ processItem (InsVal.num 7) = [IEv.insertText (InsVal.num 7)]
    ∧ processItem (InsVal.undef) = [] :=
  have h1 := c7_insertion_dispatch.2.1 4 [InsVal.node 9] [InsVal.node 5, InsVal.nullv]
  have h2 := c7_insertion_dispatch.2.2.2.2.1 7 (by decide)
  have h3 := c7_insertion_dispatch.1 InsVal.undef rfl
  ⟨by rw [h1]; rfl, h2, h3⟩

/-! Model of `init` (caldom.js 154-179) and the single/multiple accessor
dispatch installed by `_setMultipleMode` (139-148).  The prototype defaults
are the single-element accessors (`_eachSingle`, `_attrSingle`, ...);
`init` switches the instance to the multiple-element accessors only when a
truthy query/elements argument was supplied and the resulting element count
is not 1 (line 173). -/

/-- The truthy constructor argument shapes `init` distinguishes. -/
inductive InitArg where
  | arrayLike (es : List Nat)   -- array of nodes / NodeList / HTMLCollection
  | singleObj (e : Nat)         -- a single Node object
  | queryStr (res : List Nat)   -- a selector string, `res` being what the external resolver q() returns
  deriving DecidableEq

/-- A Node Collection: its elements and whether the multiple-element
accessors have been installed. -/
structure CD where
  elems : List Nat
  multipleMode : Bool
  deriving DecidableEq

/-- caldom.js 154-179 (child insertion aside): with no (or falsy) argument
the prototype defaults stay — `elems` empty, single-element accessors; with
an argument, `elems` is filled and `_setMultipleMode()` runs iff
`elems.length != 1`. -/
def initRun : Option InitArg → CD
  | none => ⟨[], false⟩
  | some a =>
    let es := match a with
      | .arrayLike es => es
      | .singleObj e => [e]
      | .queryStr r => r
    ⟨es, es.length != 1⟩

/-- `attr(name, value)` write dispatch: `_attrMultiple` (1642-1673) iterates
every element via `each`; `_attrSingle` (1617-1640) writes only
`this.elems[0]` — on an empty single-mode collection that is
`undefined.setAttribute`, a host TypeError (`none`). -/
def attrSetRun (c : CD) (name v : String) :
    Option (List (Nat × String × String)) :=
  if c.multipleMode then some (c.elems.map fun e => (e, name, v))
  else
    match c.elems.head? with
    | some e => some [(e, name, v)]
    | none => none

/-- `each` dispatch: `_eachMultiple` (1494-1501) visits every element;
`_eachSingle` (1490-1492) invokes the callback once on `this.elems[0]`
(which is undefined, `none`, when the collection is empty). -/
def eachTargets (c : CD) : List (Option Nat) :=
  if c.multipleMode then c.elems.map some
  else [c.elems.head?]

/-- Counterexample to C8: a collection constructed with no argument (e.g.
`_()`, as in the library's own reactive examples) has zero elements, yet it
keeps the prototype's single-element accessors: size 0 ≠ 1 but the mode is
single, and an attribute write addresses the absent first element (host
TypeError) instead of broadcasting over all (zero) elements. -/
theorem c8_counterexample :
    (initRun none).elems.length ≠ 1
    ∧ (initRun none).multipleMode = false
    ∧ (initRun none).multipleMode ≠ ((initRun none).elems.length != 1)
    ∧ attrSetRun (initRun none) "k" "v" = none
    ∧ attrSetRun (initRun none) "k" "v"
        ≠ some ((initRun none).elems.map fun e => (e, "k", "v")) := by
  refine ⟨by decide, rfl, by decide, rfl, by decide⟩

/-- C8 (amended): for every Node Collection constructed with a (truthy)
query/elements argument, the multiple-element accessors are installed iff
the element count is not 1, and the accessors dispatch on that mode:
with exactly one element, `attr` writes and `each` touch only the first
element; with any other count (including 0) they broadcast over all
elements.  A collection constructed with no argument is empty but keeps the
single-element accessors, which then address the missing first element. -/
theorem c8_single_multiple_dispatch (a : InitArg) (name v : String) :
    ((initRun (some a)).multipleMode = ((initRun (some a)).elems.length != 1))
    ∧ ((initRun (some a)).elems.length = 1 →
        ∃ e, (initRun (some a)).elems = [e]
          ∧ attrSetRun (initRun (some a)) name v = some [(e, name, v)]
          ∧ eachTargets (initRun (some a)) = [some e])
    ∧ ((initRun (some a)).elems.length ≠ 1 →
        attrSetRun (initRun (some a)) name v
          = some ((initRun (some a)).elems.map fun e => (e, name, v))
        ∧ eachTargets (initRun (some a)) = (initRun (some a)).elems.map some) := by
  refine ⟨?_, ?_, ?_⟩
  · cases a <;> rfl
  · intro hlen
    have hm : (initRun (some a)).multipleMode = false := by
      cases a <;> simp_all [initRun]
    cases hes : (initRun (some a)).elems with
    | nil => rw [hes] at hlen; simp at hlen
    | cons e rest =>
      cases rest with
      | nil =>
        exact ⟨e, rfl, by simp [attrSetRun, hm, hes], by simp [eachTargets, hm, hes]⟩
      | cons f rest2 => rw [hes] at hlen; simp at hlen
  · intro hlen
    have hm : (initRun (some a)).multipleMode = true := by
      cases a <;> simp_all [initRun]
    exact ⟨by simp [attrSetRun, hm], by simp [eachTargets, hm]⟩

/-- Witness for the amended C8 at concrete inputs: a three-element query
result broadcasts, a one-element query result addresses its only element. -/
theorem c8_single_multiple_dispatch_witness :
    attrSetRun (initRun (some (InitArg.queryStr [4, 5, 6]))) "k" "v"
      = some [(4, "k", "v"), (5, "k", "v"), (6, "k", "v")]
    ∧ attrSetRun (initRun (some (InitArg.singleObj 9))) "k" "v"
      = some [(9, "k", "v")] :=
  have h1 := (c8_single_multiple_dispatch (InitArg.queryStr [4, 5, 6]) "k" "v").2.2
    (by decide)
  have h2 := (c8_single_multiple_dispatch (InitArg.singleObj 9) "k" "v").2.1
    (by decide)
  ⟨by rw [h1.1]; rfl, by
    obtain ⟨e, he, ha, _⟩ := h2
    have : e = 9 := by
      have := he
      simp [initRun] at this
      omega
    rw [ha, this]⟩
